import Mathlib

/-!
Shallow embedding of the serverless-domain-manager reconciliation engine
(src/index.ts and its built counterpart src/unnamed/part_000).

Strings coming from JavaScript are manipulated through their character
lists, with structural recursion mirroring the JavaScript string
operations (`includes`, `indexOf`, `split`, `substr`, `slice`).
-/

/-- JavaScript `hay.includes(needle)`: `needle` occurs contiguously in `hay`.
`"x".includes("")` is `true`, mirrored by `isPrefixOf` of the empty list. -/
def listIncludes (needle : List Char) : List Char → Bool
  | [] => needle.isPrefixOf []
  | c :: t => needle.isPrefixOf (c :: t) || listIncludes needle t

/-- JavaScript `hay.indexOf(needle)` restricted to found/not-found:
index of the first occurrence, `none` when absent. -/
def indexOfInfix (needle : List Char) : List Char → Option Nat
  | [] => if needle.isPrefixOf [] then some 0 else none
  | c :: t =>
    if needle.isPrefixOf (c :: t) then some 0
    else (indexOfInfix needle t).map (· + 1)

/-- JavaScript `s.split(".")` on the character list: `"".split(".")` is `[""]`. -/
def splitDot : List Char → List (List Char)
  | [] => [[]]
  | c :: cs =>
    match splitDot cs with
    | [] => [[c]]
    | h :: t => if c = '.' then [] :: h :: t else (c :: h) :: t

/-- One entry of `CertificateSummaryList` in the ACM listing response. -/
structure CertificateSummary where
  DomainName : String
  CertificateArn : String
deriving Repr, DecidableEq

/-- Modelled from the spec: the `DomainInfo` class
(its source file is not under src/) is a read-only snapshot of a remote
custom-domain resource with the target `domainName` and the
`hostedZoneId` owning that target (spec section 3). -/
structure DomainInfo where
  domainName : String
  hostedZoneId : String
deriving Repr, DecidableEq

/-- The `Config` object of a Route53 hosted zone. -/
structure HostedZoneConfig where
  PrivateZone : Bool
deriving Repr, DecidableEq

/-- One entry of `HostedZones` in the Route53 listing response. -/
structure HostedZone where
  Name : String
  Id : String
  Config : HostedZoneConfig
deriving Repr, DecidableEq

/-- Modelled from the spec for its construction (the `DomainConfig` class
file is not under src/): the normalized per-domain configuration record of
spec section 3, restricted to the fields the engine under src/ reads.
`domainInfo` is the field back-filled by the status fetch. -/
structure DomainConfig where
  givenDomainName : String
  apiType : String
  endpointType : String
  securityPolicy : String
  certificateArn : Option String
  certificateName : Option String
  hostedZoneId : Option String
  hostedZonePrivate : Option Bool
  createRoute53Record : Option Bool
  enabled : Bool
  domainInfo : Option DomainInfo
deriving Repr, DecidableEq

/-- The alias target of a Route53 resource record set
(`changeResourceRecordSet` in src/index.ts, lines 380-391). -/
structure AliasTarget where
  DNSName : String
  EvaluateTargetHealth : Bool
  HostedZoneId : String
deriving Repr, DecidableEq

/-- A resource record set of the change batch. The source field `Type`
is a Lean keyword and is rendered `RecordType`. -/
structure ResourceRecordSet where
  AliasTarget : AliasTarget
  Name : String
  RecordType : String
deriving Repr, DecidableEq

/-- One change of the batch. -/
structure Change where
  Action : String
  ResourceRecordSet : ResourceRecordSet
deriving Repr, DecidableEq

/-- The change batch of a `changeResourceRecordSets` request. -/
structure ChangeBatch where
  Changes : List Change
  Comment : String
deriving Repr, DecidableEq

/-- The full parameter object submitted to Route53. -/
structure RRSParams where
  ChangeBatch : ChangeBatch
  HostedZoneId : String
deriving Repr, DecidableEq

/-- Observable actions of the engine: remote SDK calls and `cli.log` lines. -/
inductive Call where
  | getDomainName (name : String)
  | listCertificates
  | createDomainName (name : String)
  | listHostedZones
  | changeResourceRecordSets (params : RRSParams)
  | log (msg : String)
deriving Repr, DecidableEq

/-- The remote AWS state the engine talks to: the existing custom domains,
the paginated certificate store (one inner list per listing page, the
continuation token of page `i` being present exactly when page `i+1`
exists), the hosted zones, and the provider's choice of distribution
target for a newly created custom domain. -/
structure AWSState where
  domains : List (String × DomainInfo)
  certPages : List (List CertificateSummary)
  hostedZones : List HostedZone
  distribution : String → DomainInfo

/-- `certificateListName[0] === "*"` followed by `.substr(1)`
(src/unnamed/part_000 lines 308-310). -/
def stripWildcard : List Char → List Char
  | '*' :: rest => rest
  | cs => cs

/-- One iteration of the `certificates.forEach` matcher
(src/unnamed/part_000 lines 305-318): the accumulator holds
`(nameLength, certificateArn)`. -/
def certStep (givenName : List Char) (acc : Nat × Option String)
    (certificate : CertificateSummary) : Nat × Option String :=
  let certificateListName := stripWildcard certificate.DomainName.toList
  if listIncludes certificateListName givenName ∧ acc.1 < certificateListName.length then
    (certificateListName.length, some certificate.CertificateArn)
  else acc

/-- The wildcard matcher run over the whole certificate list, starting from
`nameLength = 0` and no chosen arn. -/
def resolveCert (givenName : List Char) (certificates : List CertificateSummary) :
    Option String :=
  (certificates.foldl (certStep givenName) (0, none)).2

/-- The `do`/`while (nextToken)` pagination loop of `getCertArn`
(src/unnamed/part_000 lines 286-292): returns the concatenated
`CertificateSummaryList`s and the number of `listCertificates` calls made.
An empty store answers the single mandatory call with an empty page. -/
def fetchCerts : List (List CertificateSummary) → List CertificateSummary × Nat
  | [] => ([], 1)
  | pg :: rest =>
    if rest.isEmpty then (pg, 1)
    else
      let r := fetchCerts rest
      (pg ++ r.1, r.2 + 1)

/-- `getCertArn` (src/unnamed/part_000 lines 277-330): explicit
`certificateArn` wins, else all pages are listed; a given
`certificateName` is matched exactly, otherwise the wildcard matcher runs
against `givenDomainName`. Returns the result together with the calls made. -/
def getCertArn (st : AWSState) (domain : DomainConfig) :
    Except String String × List Call :=
  match domain.certificateArn with
  | some arn => (.ok arn, [.log ("Selected specific certificateArn " ++ arn)])
  | none =>
    let fetched := fetchCerts st.certPages
    let certificates := fetched.1
    let calls := List.replicate fetched.2 Call.listCertificates
    match domain.certificateName with
    | some certificateName =>
      match certificates.find? (fun c => c.DomainName == certificateName) with
      | some c => (.ok c.CertificateArn, calls)
      | none =>
        (.error ("Error: Could not find the certificate " ++ certificateName ++ "."), calls)
    | none =>
      match resolveCert domain.givenDomainName.toList certificates with
      | some arn => (.ok arn, calls)
      | none =>
        (.error ("Error: Could not find the certificate " ++ domain.givenDomainName ++ "."),
         calls)

/-- `hostedZone.Name.endsWith(".") ? Name.slice(0, -1) : Name`
(src/unnamed/part_000 lines 488-493), on the character list. -/
def normalizeZoneLabels (name : String) : List Char :=
  let cs := name.toList
  if cs.getLast? = some '.' then cs.dropLast else cs

/-- `domain.givenDomainName.split(".").reverse()`. -/
def givenRevOf (domain : DomainConfig) : List (List Char) :=
  (splitDot domain.givenDomainName.toList).reverse

/-- The label comparison loop (src/unnamed/part_000 lines 498-503):
walks the reversed zone labels; a requested-domain label read past the end
of the array is `undefined` and never equal to a zone label. -/
def zoneLabelsMatch : List (List Char) → List (List Char) → Bool
  | _, [] => true
  | [], _ :: _ => false
  | g :: gs, z :: zs => g = z && zoneLabelsMatch gs zs

/-- The `.filter` predicate of `getRoute53HostedZoneId`
(src/unnamed/part_000 lines 486-507): privacy filter, then the
single-label-or-length guard, then the label loop. -/
def hostedZoneFilter (domain : DomainConfig) (givenDomainNameReverse : List (List Char))
    (hostedZone : HostedZone) : Bool :=
  let hostedZoneName := normalizeZoneLabels hostedZone.Name
  let filterZone := domain.hostedZonePrivate.isSome
  if !filterZone || domain.hostedZonePrivate == some hostedZone.Config.PrivateZone then
    let hostedZoneNameReverse := (splitDot hostedZoneName).reverse
    if givenDomainNameReverse.length = 1
        ∨ hostedZoneNameReverse.length ≤ givenDomainNameReverse.length then
      zoneLabelsMatch givenDomainNameReverse hostedZoneNameReverse
    else false
  else false

/-- Stable descending insertion by raw `Name` length: an element is placed
after every element of greater-or-equal length, matching the stable
JavaScript `sort((z1, z2) => z2.Name.length - z1.Name.length)`. -/
def insertDesc (z : HostedZone) : List HostedZone → List HostedZone
  | [] => [z]
  | w :: ws => if w.Name.length < z.Name.length then z :: w :: ws else w :: insertDesc z ws

/-- The stable descending sort used before `.shift()`. -/
def sortDesc (zones : List HostedZone) : List HostedZone :=
  zones.foldl (fun acc z => insertDesc z acc) []

/-- `hostedZoneId.indexOf("e/") + 2` then `substring(startPos, length)`
(src/unnamed/part_000 lines 511-515); an absent `"e/"` gives
`indexOf = -1`, hence `startPos = 1`. -/
def extractZoneId (hostedZoneId : String) : String :=
  let cs := hostedZoneId.toList
  let startPos : Nat :=
    match indexOfInfix ['e', '/'] cs with
    | some i => i + 2
    | none => 1
  String.mk (cs.drop startPos)

/-- `getRoute53HostedZoneId` (src/unnamed/part_000 lines 468-524):
explicit `hostedZoneId` wins, else the zones are listed, filtered, sorted
descending by raw name length and the head extracted. -/
def getRoute53HostedZoneId (zones : List HostedZone) (domain : DomainConfig) :
    Except String String × List Call :=
  match domain.hostedZoneId with
  | some zid => (.ok zid, [.log ("Selected specific hostedZoneId " ++ zid)])
  | none =>
    let givenDomainNameReverse := givenRevOf domain
    let matched := zones.filter (hostedZoneFilter domain givenDomainNameReverse)
    match (sortDesc matched).head? with
    | some targetHostedZone =>
      (.ok (extractZoneId targetHostedZone.Id), [.listHostedZones])
    | none =>
      (.error ("Error: Could not find hosted zone \"" ++ domain.givenDomainName ++ "\""),
       [.listHostedZones])

/-- `changeResourceRecordSet` (src/unnamed/part_000 lines 423-464):
action check, `createRoute53Record` short-circuit, hosted-zone resolution,
then one batch of an `A` and an `AAAA` alias change. Returns the
submitted parameter object (`none` when skipped) with the calls made. -/
def changeResourceRecordSet (zones : List HostedZone) (action : String)
    (domain : DomainConfig) : Except String (Option RRSParams) × List Call :=
  if action ≠ "UPSERT" ∧ action ≠ "DELETE" then
    (.error ("Error: Invalid action \"" ++ action ++ "\" when changing Route53 Record.\n                Action must be either UPSERT or DELETE.\n"), [])
  else
    match domain.createRoute53Record with
    | some false =>
      (.ok none,
       [.log ("Skipping " ++ (if action == "DELETE" then "removal" else "creation")
          ++ " of Route53 record.")])
    | _ =>
      match getRoute53HostedZoneId zones domain with
      | (.error e, calls) => (.error e, calls)
      | (.ok route53HostedZoneId, calls) =>
        match domain.domainInfo with
        | none => (.error "TypeError: domainInfo is undefined", calls)
        | some info =>
          let Changes := ["A", "AAAA"].map (fun Type_ =>
            Change.mk action
              (ResourceRecordSet.mk
                (AliasTarget.mk info.domainName false info.hostedZoneId)
                domain.givenDomainName Type_))
          let params : RRSParams :=
            RRSParams.mk
              (ChangeBatch.mk Changes "Record created by serverless-domain-manager")
              route53HostedZoneId
          (.ok (some params), calls ++ [.changeResourceRecordSets params])

/-- The `getDomainName` status fetch of `getDomainInfo`
(src/unnamed/part_000 lines 334-351) for one domain: a found domain
populates `domainInfo`, `NotFoundException` leaves it unset. -/
def lookupDomain (st : AWSState) (name : String) : Option DomainInfo :=
  (st.domains.find? (fun p => p.1 == name)).map (·.2)

/-- `createCustomDomain` (src/unnamed/part_000 lines 356-402): both the
edge (v1) and the regional (v2) branch issue one domain-creation call and
populate `domainInfo` from the response; the model's provider always
accepts the creation and registers the domain. -/
def createCustomDomain (st : AWSState) (domain : DomainConfig) :
    AWSState × DomainInfo × List Call :=
  let info := st.distribution domain.givenDomainName
  (AWSState.mk ((domain.givenDomainName, info) :: st.domains) st.certPages st.hostedZones
     st.distribution,
   info,
   [.createDomainName domain.givenDomainName])

/-- The per-domain strand of `createDomains`
(src/unnamed/part_000 lines 62-84): status fetch, then either the
already-exists log or certificate resolution, domain creation, the UPSERT
record change and the created log; any error of a step is wrapped into
the domain-scoped message (the `craete` typo is the source's). -/
def createDomainsOne (st : AWSState) (domain : DomainConfig) :
    Except String AWSState × List Call :=
  match lookupDomain st domain.givenDomainName with
  | some _ =>
    (.ok st,
     [Call.getDomainName domain.givenDomainName]
       ++ [.log ("Custom domain " ++ domain.givenDomainName ++ " already exists.")])
  | none =>
    match getCertArn st domain with
    | (.error _, calls1) =>
      (.error ("Error: Unable to craete domain " ++ domain.givenDomainName),
       [Call.getDomainName domain.givenDomainName] ++ calls1)
    | (.ok _, calls1) =>
      match createCustomDomain st domain with
      | (st1, info, calls2) =>
        match changeResourceRecordSet st1.hostedZones "UPSERT"
            { domain with domainInfo := some info } with
        | (.error _, calls3) =>
          (.error ("Error: Unable to craete domain " ++ domain.givenDomainName),
           [Call.getDomainName domain.givenDomainName] ++ calls1 ++ calls2 ++ calls3)
        | (.ok _, calls3) =>
          (.ok st1,
           [Call.getDomainName domain.givenDomainName] ++ calls1 ++ calls2 ++ calls3
             ++ [.log ("Custom domain " ++ domain.givenDomainName ++ " was created.\n                        New domains may take up to 40 minutes to be initialized.")])

/-- The per-config check of `validateDomainConfigs`
(src/unnamed/part_000 lines 250-273): HTTP and WebSocket APIs reject the
EDGE endpoint type; REST has no check. -/
def validateDomainConfig (domain : DomainConfig) : Except String Unit :=
  if domain.apiType == "REST" then .ok ()
  else if domain.apiType == "HTTP" then
    if domain.endpointType == "EDGE" then
      .error "Error: 'edge' endpointType is not compatible with HTTP APIs"
    else .ok ()
  else if domain.apiType == "WEBSOCKET" then
    if domain.endpointType == "EDGE" then
      .error "Error: 'edge' endpointType is not compatible with WebSocket APIs"
    else .ok ()
  else .ok ()

/-- The `forEach` of `validateDomainConfigs`: the first offending config
throws and aborts the whole walk. -/
def validateDomainConfigs : List DomainConfig → Except String Unit
  | [] => .ok ()
  | d :: ds =>
    match validateDomainConfig d with
    | .error e => .error e
    | .ok _ => validateDomainConfigs ds

/-- The domain-list part of `initializeVariables`
(src/unnamed/part_000 lines 205-246): the configured domains are
collected, the disabled ones filtered out, and the result validated
before any lifecycle body runs. -/
def initializeVariables (configs : List DomainConfig) : Except String (List DomainConfig) :=
  let domains := configs.filter (·.enabled)
  match validateDomainConfigs domains with
  | .error e => .error e
  | .ok _ => .ok domains

/-- `hookWrapper` around a lifecycle operation: `initializeVariables`
first, the body (which makes the remote calls) only on success. -/
def runOperation (configs : List DomainConfig)
    (body : List DomainConfig → AWSState → Except String AWSState × List Call)
    (st : AWSState) : Except String AWSState × List Call :=
  match initializeVariables configs with
  | .error e => (.error e, [])
  | .ok ds => body ds st

/-- The per-iteration ACM region choice of `initializeVariables`
(src/unnamed/part_000 lines 238-243). -/
def acmRegionFor (deployRegion : String) (dc : DomainConfig) : String :=
  if dc.endpointType == "REGIONAL" then deployRegion else "us-east-1"

/-- The loop `for (const dc of this.domains)` overwrites the single
`this.acmRegion`/`this.acm` fields on every iteration, so the client that
survives for all later `listCertificates` calls is the last config's. -/
def finalAcmRegion (deployRegion : String) (domains : List DomainConfig) : Option String :=
  domains.foldl (fun _ dc => some (acmRegionFor deployRegion dc)) none

/-- JavaScript truthiness of `process.env.SLS_DEBUG`: set and non-empty. -/
def isTruthyEnv : Option String → Bool
  | none => false
  | some s => !(s == "")

/-- `logIfDebug` as written in src/index.ts lines 659-663: the guard is
`process.env.SLS_DEBUG || true`. Returns the line written, if any. -/
def logIfDebugSrc (slsDebug : Option String) (message domain : String) : Option String :=
  if isTruthyEnv slsDebug || true then
    some ((if !(domain == "") then domain ++ ": " else "") ++ " " ++ message)
  else none

/-- `logIfDebug` as written in src/unnamed/part_000 lines 737-741: the
guard is `process.env.SLS_DEBUG` alone. -/
def logIfDebugDist (slsDebug : Option String) (message domain : String) : Option String :=
  if isTruthyEnv slsDebug then
    some ("Error: " ++ (if !(domain == "") then domain ++ ": " else "") ++ " " ++ message)
  else none

/-! ## Specification-side definitions

These follow the spec's words, to be compared with the definitions
embedded from the source. -/

/-- The stripped-name length of a candidate. -/
def certLen (c : CertificateSummary) : Nat := (stripWildcard c.DomainName.toList).length

/-- Whether the requested name contains the candidate's stripped name as a
substring. -/
def certOk (givenName : List Char) (c : CertificateSummary) : Bool :=
  listIncludes (stripWildcard c.DomainName.toList) givenName

/-- Spec side (claim C1): the candidates whose stripped name the requested
domain name contains as a substring. -/
def certMatches (givenName : List Char) (certificates : List CertificateSummary) :
    List CertificateSummary :=
  certificates.filter (certOk givenName)

/-- Spec side (claim C1): the greatest stripped-name length among the matches. -/
def maxStrippedLen (givenName : List Char) (certificates : List CertificateSummary) : Nat :=
  ((certMatches givenName certificates).map certLen).foldr max 0

/-- Spec side (claim C1): the ARN of the first candidate encountered at the
maximum stripped-name length. -/
def firstAtMaxArn (givenName : List Char) (certificates : List CertificateSummary) :
    Option String :=
  ((certMatches givenName certificates).find?
    (fun c => certLen c == maxStrippedLen givenName certificates)).map
    (·.CertificateArn)

/-- Spec side (claim C2), as the claim words it: kept exactly when the
zone's normalized reversed labels are a componentwise prefix of the
requested domain's reversed labels, with a single-label requested domain
matching any zone. -/
def c2ClaimedKeep (domain : DomainConfig) (hostedZone : HostedZone) : Bool :=
  let givenRev := givenRevOf domain
  let zoneRev := (splitDot (normalizeZoneLabels hostedZone.Name)).reverse
  zoneRev.isPrefixOf givenRev || givenRev.length == 1

/-- The privacy part of the zone filter: no `hostedZonePrivate` filter, or
the zone's privacy flag equals it. -/
def privacyOk (domain : DomainConfig) (hostedZone : HostedZone) : Bool :=
  !domain.hostedZonePrivate.isSome
    || domain.hostedZonePrivate == some hostedZone.Config.PrivateZone

/-- Amended spec side (claim C2): kept exactly when the privacy filter
passes and the zone's normalized reversed labels are a componentwise
prefix of the requested domain's reversed labels (the single-label clause
of the guard is vacuous). -/
def c2AmendedKeep (domain : DomainConfig) (hostedZone : HostedZone) : Bool :=
  privacyOk domain hostedZone
    && ((splitDot (normalizeZoneLabels hostedZone.Name)).reverse).isPrefixOf (givenRevOf domain)

/-- The matched zones of `getRoute53HostedZoneId` before sorting. -/
def matchedZones (zones : List HostedZone) (domain : DomainConfig) : List HostedZone :=
  zones.filter (hostedZoneFilter domain (givenRevOf domain))

/-! ## Concrete instances used by the claim theorems -/

/-- A neutral distribution assignment for the modelled provider. -/
def defaultDistribution : String → DomainInfo :=
  fun name => DomainInfo.mk ("d-" ++ name) "Z2FDTNDATAQYW2"

/-- Certificate `*.example.com`. -/
def c1CertA : CertificateSummary := CertificateSummary.mk "*.example.com" "arnA"

/-- Certificate `*.api.example.com`. -/
def c1CertB : CertificateSummary := CertificateSummary.mk "*.api.example.com" "arnB"

/-- Config requesting `api.example.com` with no certificate override. -/
def c1CfgApi : DomainConfig :=
  DomainConfig.mk "api.example.com" "REST" "REGIONAL" "TLS_1_2" none none none none none true none

/-- Config requesting `foo.api.example.com` with no certificate override. -/
def c1CfgFoo : DomainConfig :=
  DomainConfig.mk "foo.api.example.com" "REST" "REGIONAL" "TLS_1_2" none none none none none
    true none

/-- Store holding the two wildcard certificates on a single page. -/
def c1St : AWSState := AWSState.mk [] [[c1CertA, c1CertB]] [] defaultDistribution

/-- Single-label config `com`, no overrides and no privacy filter. -/
def c2Cfg1 : DomainConfig :=
  DomainConfig.mk "com" "REST" "EDGE" "TLS_1_2" none none none none none true none

/-- Public zone `example.com.`. -/
def c2Hz1 : HostedZone :=
  HostedZone.mk "example.com." "/hostedzone/Z1" (HostedZoneConfig.mk false)

/-- Config `foo.example.com` filtering to private zones only. -/
def c2Cfg2 : DomainConfig :=
  DomainConfig.mk "foo.example.com" "REST" "REGIONAL" "TLS_1_2" none none none (some true)
    none true none

/-- Public zone `example.com.` offered against the private-only filter. -/
def c2Hz2 : HostedZone :=
  HostedZone.mk "example.com." "/hostedzone/Z2" (HostedZoneConfig.mk false)

/-- Config requesting `foo.bar.example.com` with no hosted-zone override. -/
def c3Cfg : DomainConfig :=
  DomainConfig.mk "foo.bar.example.com" "REST" "REGIONAL" "TLS_1_2" none none none none none
    true none

/-- The two public zones of the spec's hosted-zone example. -/
def c3Zones : List HostedZone :=
  [HostedZone.mk "example.com." "/hostedzone/Z1" (HostedZoneConfig.mk false),
   HostedZone.mk "bar.example.com." "/hostedzone/ABC123" (HostedZoneConfig.mk false)]

/-- Config whose creation path needs no certificate listing and no DNS
record (explicit arn, `createRoute53Record = false`). -/
def c4Cfg : DomainConfig :=
  DomainConfig.mk "w.example.com" "REST" "REGIONAL" "TLS_1_2" (some "arn-w") none none none
    (some false) true none

/-- Initial remote state with no custom domains. -/
def c4St : AWSState := AWSState.mk [] [] [] defaultDistribution

/-- Remote state after the first successful `createDomains` run on `c4Cfg`. -/
def c4StAfter : AWSState :=
  AWSState.mk [("w.example.com", defaultDistribution "w.example.com")] [] []
    defaultDistribution

/-- The calls of the first successful `createDomains` run on `c4Cfg`. -/
def c4Trace : List Call :=
  [Call.getDomainName "w.example.com",
   Call.log "Selected specific certificateArn arn-w",
   Call.createDomainName "w.example.com",
   Call.log "Skipping creation of Route53 record.",
   Call.log "Custom domain w.example.com was created.\n                        New domains may take up to 40 minutes to be initialized."]

/-- A disabled HTTP+EDGE config. -/
def c5BadCfg : DomainConfig :=
  DomainConfig.mk "bad.example.com" "HTTP" "EDGE" "TLS_1_2" none none none none none false none

/-- Domain list whose only HTTP+EDGE config is disabled. -/
def c5Configs : List DomainConfig := [c5BadCfg]

/-- A neutral remote state for the validation counterexample. -/
def c5St : AWSState := AWSState.mk [] [] [] defaultDistribution

/-- A lifecycle body that makes one remote call, to witness that the body
does run when validation does not abort. -/
def c5Body : List DomainConfig → AWSState → Except String AWSState × List Call :=
  fun _ _ => (Except.ok c5St, [Call.listHostedZones])

/-- An enabled HTTP+EDGE config. -/
def c5wCfg : DomainConfig :=
  DomainConfig.mk "bad.example.com" "HTTP" "EDGE" "TLS_1_2" none none none none none true none

/-- Domain list with one enabled HTTP+EDGE config. -/
def c5wConfigs : List DomainConfig := [c5wCfg]

/-- A single public zone `example.com.` for the record-change witness. -/
def c6Zones : List HostedZone :=
  [HostedZone.mk "example.com." "/hostedzone/Z6" (HostedZoneConfig.mk false)]

/-- Config for `api.example.com` with `domainInfo` populated. -/
def c6Cfg : DomainConfig :=
  DomainConfig.mk "api.example.com" "REST" "REGIONAL" "TLS_1_2" none none none none none true
    (some (DomainInfo.mk "d-api.example.com" "Z2FDTNDATAQYW2"))

/-- The parameter object the UPSERT witness call must submit. -/
def c6Params : RRSParams :=
  RRSParams.mk
    (ChangeBatch.mk
      [Change.mk "UPSERT"
        (ResourceRecordSet.mk
          (AliasTarget.mk "d-api.example.com" false "Z2FDTNDATAQYW2") "api.example.com" "A"),
       Change.mk "UPSERT"
        (ResourceRecordSet.mk
          (AliasTarget.mk "d-api.example.com" false "Z2FDTNDATAQYW2") "api.example.com" "AAAA")]
      "Record created by serverless-domain-manager")
    "Z6"

/-- Store whose only matching certificate sits on the second page. -/
def c7St : AWSState :=
  AWSState.mk []
    [[CertificateSummary.mk "other.org" "arn0"],
     [CertificateSummary.mk "*.example.com" "arn-page2"]]
    [] defaultDistribution

/-- Config requesting `api.example.com`, forcing the wildcard matcher. -/
def c7Cfg : DomainConfig :=
  DomainConfig.mk "api.example.com" "REST" "REGIONAL" "TLS_1_2" none none none none none
    true none

/-- A REGIONAL config, whose listing should query the deployment region. -/
def c8Regional : DomainConfig :=
  DomainConfig.mk "r.example.com" "REST" "REGIONAL" "TLS_1_2" none none none none none true none

/-- An EDGE config, whose listing should query us-east-1. -/
def c8Edge : DomainConfig :=
  DomainConfig.mk "e.example.com" "REST" "EDGE" "TLS_1_2" none none none none none true none

/-- Config for the invalid-action witness. -/
def c10Cfg : DomainConfig :=
  DomainConfig.mk "x.example.com" "REST" "REGIONAL" "TLS_1_2" none none none none none
    true none

/-! ## Theorems -/

/-- C10: for every action other than UPSERT and DELETE,
`changeResourceRecordSet` throws the invalid-action error at once — no
`createRoute53Record` read can matter, no hosted-zone resolution happens
and no remote call is made (the call list is empty and the result does
not depend on the domain or the zones). -/
theorem c10_theorem (action : String) (zones : List HostedZone) (domain : DomainConfig)
    (h1 : action ≠ "UPSERT") (h2 : action ≠ "DELETE") :
    changeResourceRecordSet zones action domain =
      (Except.error ("Error: Invalid action \"" ++ action
         ++ "\" when changing Route53 Record.\n                Action must be either UPSERT or DELETE.\n"),
       []) := by
  unfold changeResourceRecordSet
  rw [if_pos ⟨h1, h2⟩]

/-- Witness for C10 at the concrete action `FOO`. -/
theorem c10_witness :
    changeResourceRecordSet [] "FOO" c10Cfg =
      (Except.error ("Error: Invalid action \"" ++ "FOO"
         ++ "\" when changing Route53 Record.\n                Action must be either UPSERT or DELETE.\n"),
       []) :=
  c10_theorem "FOO" [] c10Cfg (by decide) (by decide)

/-- C8: the ACM-region loop of `initializeVariables` keeps one shared
client, so after processing `[REGIONAL, EDGE]` with deployment region
eu-west-1 the surviving region is us-east-1, although the REGIONAL
config's own rule picks eu-west-1 — the claim fails for the first config. -/
theorem c8_theorem :
    finalAcmRegion "eu-west-1" [c8Regional, c8Edge] = some "us-east-1"
    ∧ acmRegionFor "eu-west-1" c8Regional = "eu-west-1"
    ∧ ("us-east-1" : String) ≠ "eu-west-1" :=
  ⟨rfl, rfl, by decide⟩

/-- C9: the src/index.ts `logIfDebug` guard `SLS_DEBUG || true` writes the
raw detail even when the toggle is absent, while the built copy
(src/unnamed/part_000) writes it exactly when the toggle is truthy. -/
theorem c9_theorem :
    logIfDebugSrc none "AccessDenied: raw provider detail" "api.example.com"
      = some "api.example.com:  AccessDenied: raw provider detail"
    ∧ logIfDebugDist none "AccessDenied: raw provider detail" "api.example.com" = none
    ∧ ∀ (slsDebug : Option String) (message domain : String),
        (logIfDebugDist slsDebug message domain).isSome = isTruthyEnv slsDebug :=
  ⟨rfl, rfl, fun slsDebug message domain => by
    cases h : isTruthyEnv slsDebug <;> simp [logIfDebugDist, h]⟩

/-- C7: the pagination loop of `getCertArn` issues one listing call per
page, follows the token to the end, matches on the concatenation of all
pages, and so can select a certificate sitting on the second page. -/
theorem c7_theorem :
    (∀ pages : List (List CertificateSummary),
        (fetchCerts pages).1 = pages.flatten ∧ (fetchCerts pages).2 = max 1 pages.length)
    ∧ (getCertArn c7St c7Cfg).1 = Except.ok "arn-page2" := by
  constructor
  · intro pages
    induction pages with
    | nil => simp [fetchCerts]
    | cons pg rest ih =>
      cases rest with
      | nil => simp [fetchCerts]
      | cons q qs =>
        have h1 := ih.1
        have h2 := ih.2
        have hstep : fetchCerts (pg :: q :: qs)
            = (pg ++ (fetchCerts (q :: qs)).1, (fetchCerts (q :: qs)).2 + 1) := rfl
        rw [hstep]
        refine ⟨by rw [h1]; rfl, ?_⟩
        have hlen : (q :: qs).length = qs.length + 1 := rfl
        rw [h2]
        simp only [List.length_cons]
        omega
  · rfl

/-- C1 counterexample: for requested domain `api.example.com` with the two
candidates `*.example.com` and `*.api.example.com`, the resolver returns
the ARN of `*.example.com` (the stripped `.api.example.com` keeps its dot
and is not a substring of `api.example.com`), not the claimed
`*.api.example.com`; and for a match whose stripped name is empty the
claimed maximal match exists but the resolver selects nothing. -/
theorem c1_counterexample :
    (getCertArn c1St c1CfgApi).1 = Except.ok "arnA"
    ∧ ("arnA" : String) ≠ "arnB"
    ∧ certMatches "a".toList [CertificateSummary.mk "*" "arn1"]
        = [CertificateSummary.mk "*" "arn1"]
    ∧ firstAtMaxArn "a".toList [CertificateSummary.mk "*" "arn1"] = some "arn1"
    ∧ resolveCert "a".toList [CertificateSummary.mk "*" "arn1"] = none :=
  ⟨rfl, by decide, rfl, rfl, rfl⟩

/-- C2 counterexample: the single-label domain `com` does not match the
zone `example.com.` (the comparison loop reads past the end of the
requested labels), and a public zone is dropped under a private-only
filter although its labels match — both contradict the claim's
`kept exactly when` rule. -/
theorem c2_counterexample :
    hostedZoneFilter c2Cfg1 (givenRevOf c2Cfg1) c2Hz1 = false
    ∧ c2ClaimedKeep c2Cfg1 c2Hz1 = true
    ∧ hostedZoneFilter c2Cfg2 (givenRevOf c2Cfg2) c2Hz2 = false
    ∧ c2ClaimedKeep c2Cfg2 c2Hz2 = true :=
  ⟨rfl, rfl, rfl, rfl⟩

/-- An HTTP or WEBSOCKET config with the EDGE endpoint type fails the
per-config validation. -/
theorem validateDomainConfig_error_of (d : DomainConfig)
    (hapi : d.apiType = "HTTP" ∨ d.apiType = "WEBSOCKET") (hep : d.endpointType = "EDGE") :
    ∃ e, validateDomainConfig d = Except.error e := by
  rcases hapi with h | h
  · refine ⟨"Error: 'edge' endpointType is not compatible with HTTP APIs", ?_⟩
    simp only [validateDomainConfig, h, hep]
    rfl
  · refine ⟨"Error: 'edge' endpointType is not compatible with WebSocket APIs", ?_⟩
    simp only [validateDomainConfig, h, hep]
    rfl

/-- A list holding an HTTP/WEBSOCKET+EDGE config fails `validateDomainConfigs`. -/
theorem validateDomainConfigs_error_of (ds : List DomainConfig)
    (h : ∃ d ∈ ds, (d.apiType = "HTTP" ∨ d.apiType = "WEBSOCKET") ∧ d.endpointType = "EDGE") :
    ∃ e, validateDomainConfigs ds = Except.error e := by
  induction ds with
  | nil => simp at h
  | cons d0 ds ih =>
    cases hv : validateDomainConfig d0 with
    | error e => exact ⟨e, by simp [validateDomainConfigs, hv]⟩
    | ok u =>
      rcases h with ⟨d, hd, hbad⟩
      rcases List.mem_cons.mp hd with rfl | hmem
      · rcases validateDomainConfig_error_of d hbad.1 hbad.2 with ⟨e, he⟩
        rw [hv] at he
        cases he
      · rcases ih ⟨d, hmem, hbad⟩ with ⟨e, he⟩
        exact ⟨e, by simp [validateDomainConfigs, hv, he]⟩

/-- C5 amended: for every domain list containing at least one *enabled*
config with apiType HTTP or WEBSOCKET and endpointType EDGE, every
operation aborts during validation with a descriptive error, before any
remote call is made and before any domain in the batch is processed (the
call list of the whole operation is empty); a disabled offending config
is filtered out before validation and causes no abort. -/
theorem c5_theorem (configs : List DomainConfig)
    (h : ∃ d ∈ configs, d.enabled = true
        ∧ (d.apiType = "HTTP" ∨ d.apiType = "WEBSOCKET") ∧ d.endpointType = "EDGE") :
    ∃ e, initializeVariables configs = Except.error e
      ∧ ∀ (body : List DomainConfig → AWSState → Except String AWSState × List Call)
          (st : AWSState), runOperation configs body st = (Except.error e, []) := by
  rcases h with ⟨d, hd, hen, hbad⟩
  have hmem : d ∈ configs.filter (·.enabled) := List.mem_filter.mpr ⟨hd, hen⟩
  rcases validateDomainConfigs_error_of _ ⟨d, hmem, hbad⟩ with ⟨e, he⟩
  refine ⟨e, ?_, ?_⟩
  · simp [initializeVariables, he]
  · intro body st
    simp [runOperation, initializeVariables, he]

/-- C5 counterexample: a domain list whose only HTTP+EDGE config is
disabled passes validation, and the operation body runs and makes a
remote call — the claim as stated (without the enabled proviso) fails. -/
theorem c5_counterexample :
    (c5Configs.any (fun d => d.apiType == "HTTP" && d.endpointType == "EDGE")) = true
    ∧ initializeVariables c5Configs = Except.ok []
    ∧ runOperation c5Configs c5Body c5St = (Except.ok c5St, [Call.listHostedZones]) :=
  ⟨rfl, rfl, rfl⟩

/-- Witness for C5 at a single enabled HTTP+EDGE config. -/
theorem c5_witness :
    ∃ e, initializeVariables c5wConfigs = Except.error e
      ∧ ∀ (body : List DomainConfig → AWSState → Except String AWSState × List Call)
          (st : AWSState), runOperation c5wConfigs body st = (Except.error e, []) :=
  c5_theorem c5wConfigs (by decide)

/-- C6: with a valid action, `createRoute53Record` not false and
`domainInfo` populated, a successful hosted-zone resolution leads to
exactly one submitted change batch of exactly two changes — an A and an
AAAA alias — both named by the given domain, both targeting
`domainInfo.domainName`/`domainInfo.hostedZoneId` with
`EvaluateTargetHealth = false`. -/
theorem c6_theorem (zones : List HostedZone) (action : String) (domain : DomainConfig)
    (info : DomainInfo) (zid : String) (calls : List Call)
    (ha : action = "UPSERT" ∨ action = "DELETE")
    (hr : domain.createRoute53Record ≠ some false)
    (hi : domain.domainInfo = some info)
    (hz : getRoute53HostedZoneId zones domain = (Except.ok zid, calls)) :
    changeResourceRecordSet zones action domain =
      (Except.ok (some (RRSParams.mk (ChangeBatch.mk
          [Change.mk action (ResourceRecordSet.mk
              (AliasTarget.mk info.domainName false info.hostedZoneId)
              domain.givenDomainName "A"),
           Change.mk action (ResourceRecordSet.mk
              (AliasTarget.mk info.domainName false info.hostedZoneId)
              domain.givenDomainName "AAAA")]
          "Record created by serverless-domain-manager") zid)),
       calls ++ [Call.changeResourceRecordSets (RRSParams.mk (ChangeBatch.mk
          [Change.mk action (ResourceRecordSet.mk
              (AliasTarget.mk info.domainName false info.hostedZoneId)
              domain.givenDomainName "A"),
           Change.mk action (ResourceRecordSet.mk
              (AliasTarget.mk info.domainName false info.hostedZoneId)
              domain.givenDomainName "AAAA")]
          "Record created by serverless-domain-manager") zid)]) := by
  have hcond : ¬(action ≠ "UPSERT" ∧ action ≠ "DELETE") := by
    rcases ha with h | h <;> simp [h]
  unfold changeResourceRecordSet
  rw [if_neg hcond]
  cases hcr : domain.createRoute53Record with
  | none => rw [hz, hi]; rfl
  | some b =>
    cases b with
    | false => exact absurd hcr hr
    | true => rw [hz, hi]; rfl

/-- Witness for C6: the UPSERT call on `api.example.com` submits the A and
AAAA alias batch against zone Z6. -/
theorem c6_witness :
    changeResourceRecordSet c6Zones "UPSERT" c6Cfg =
      (Except.ok (some c6Params),
       [Call.listHostedZones, Call.changeResourceRecordSets c6Params]) :=
  c6_theorem c6Zones "UPSERT" c6Cfg (DomainInfo.mk "d-api.example.com" "Z2FDTNDATAQYW2")
    "Z6" [Call.listHostedZones] (Or.inl rfl) (by decide) rfl rfl

/-- A freshly created domain is found by the status fetch. -/
theorem lookupDomain_createCustomDomain (st : AWSState) (domain : DomainConfig) :
    lookupDomain (createCustomDomain st domain).1 domain.givenDomainName
      = some (st.distribution domain.givenDomainName) := by
  simp [lookupDomain, createCustomDomain, List.find?]

/-- C4: if a `createDomains` run on a domain succeeds, the resulting
remote state resolves that domain's status fetch, and a second run on the
same domain leaves the remote state unchanged and performs only the
status fetch and the already-exists log — no certificate listing, no
domain creation, no record change. -/
theorem c4_theorem (st : AWSState) (domain : DomainConfig) (st' : AWSState) (tr : List Call)
    (hfirst : createDomainsOne st domain = (Except.ok st', tr)) :
    (lookupDomain st' domain.givenDomainName).isSome = true
    ∧ createDomainsOne st' domain =
        (Except.ok st',
         [Call.getDomainName domain.givenDomainName,
          Call.log ("Custom domain " ++ domain.givenDomainName ++ " already exists.")]) := by
  unfold createDomainsOne at hfirst ⊢
  cases hl : lookupDomain st domain.givenDomainName with
  | some i =>
    rw [hl] at hfirst
    injection hfirst with h1 h2
    injection h1 with hst
    subst hst
    rw [hl]
    exact ⟨rfl, rfl⟩
  | none =>
    rw [hl] at hfirst
    rcases hc : getCertArn st domain with ⟨res, calls1⟩
    rw [hc] at hfirst
    cases res with
    | error e => exact absurd (congrArg Prod.fst hfirst) (by simp)
    | ok arn =>
      rcases hcc : createCustomDomain st domain with ⟨st1, info, calls2⟩
      rw [hcc] at hfirst
      dsimp only at hfirst
      rcases hrr : changeResourceRecordSet st1.hostedZones "UPSERT"
          { domain with domainInfo := some info } with ⟨res3, calls3⟩
      rw [hrr] at hfirst
      cases res3 with
      | error e => exact absurd (congrArg Prod.fst hfirst) (by simp)
      | ok p =>
        injection hfirst with h1 h2
        injection h1 with hst
        subst hst
        have hlk := lookupDomain_createCustomDomain st domain
        rw [hcc] at hlk
        rw [hlk]
        exact ⟨rfl, rfl⟩

/-- Witness for C4: after the first successful run on `c4Cfg`, the second
run finds the domain and only fetches status and logs. -/
theorem c4_witness :
    (lookupDomain c4StAfter c4Cfg.givenDomainName).isSome = true
    ∧ createDomainsOne c4StAfter c4Cfg =
        (Except.ok c4StAfter,
         [Call.getDomainName c4Cfg.givenDomainName,
          Call.log ("Custom domain " ++ c4Cfg.givenDomainName ++ " already exists.")]) :=
  c4_theorem c4St c4Cfg c4StAfter c4Trace rfl

/-- Membership through `insertDesc`. -/
theorem mem_insertDesc {x z : HostedZone} :
    ∀ {l : List HostedZone}, x ∈ insertDesc z l ↔ x = z ∨ x ∈ l := by
  intro l
  induction l with
  | nil => simp [insertDesc]
  | cons w ws ih =>
    by_cases h : w.Name.length < z.Name.length
    · simp only [insertDesc, if_pos h, List.mem_cons]
    · simp only [insertDesc, if_neg h, List.mem_cons, ih]
      tauto

/-- `insertDesc` preserves the descending-by-name-length pairwise order. -/
theorem pairwise_insertDesc {z : HostedZone} :
    ∀ {l : List HostedZone},
      l.Pairwise (fun a b => b.Name.length ≤ a.Name.length) →
      (insertDesc z l).Pairwise (fun a b => b.Name.length ≤ a.Name.length) := by
  intro l
  induction l with
  | nil => intro _; simp [insertDesc]
  | cons w ws ih =>
    intro hp
    rw [List.pairwise_cons] at hp
    obtain ⟨hw, hws⟩ := hp
    by_cases h : w.Name.length < z.Name.length
    · simp only [insertDesc, if_pos h]
      rw [List.pairwise_cons]
      refine ⟨?_, ?_⟩
      · intro b hb
        rcases List.mem_cons.mp hb with rfl | hb'
        · omega
        · have := hw b hb'
          omega
      · rw [List.pairwise_cons]
        exact ⟨hw, hws⟩
    · simp only [insertDesc, if_neg h]
      rw [List.pairwise_cons]
      refine ⟨?_, ih hws⟩
      intro b hb
      rcases mem_insertDesc.mp hb with rfl | hb'
      · omega
      · exact hw b hb'

/-- Membership through the sorting fold. -/
theorem mem_foldl_insertDesc (x : HostedZone) :
    ∀ (l acc : List HostedZone),
      (x ∈ l.foldl (fun a z => insertDesc z a) acc ↔ x ∈ acc ∨ x ∈ l) := by
  intro l
  induction l with
  | nil => intro acc; simp
  | cons z zs ih =>
    intro acc
    rw [List.foldl_cons, ih (insertDesc z acc)]
    simp only [mem_insertDesc, List.mem_cons]
    tauto

/-- The sorting fold yields a descending pairwise list. -/
theorem pairwise_foldl_insertDesc :
    ∀ (l acc : List HostedZone),
      acc.Pairwise (fun a b => b.Name.length ≤ a.Name.length) →
      (l.foldl (fun a z => insertDesc z a) acc).Pairwise
        (fun a b => b.Name.length ≤ a.Name.length) := by
  intro l
  induction l with
  | nil => intro acc h; simpa using h
  | cons z zs ih =>
    intro acc h
    rw [List.foldl_cons]
    exact ih (insertDesc z acc) (pairwise_insertDesc h)

/-- Membership through `sortDesc`. -/
theorem sortDesc_mem (x : HostedZone) (l : List HostedZone) :
    x ∈ sortDesc l ↔ x ∈ l := by
  simpa [sortDesc] using mem_foldl_insertDesc x l []

/-- `sortDesc` sorts descending by raw name length. -/
theorem sortDesc_pairwise (l : List HostedZone) :
    (sortDesc l).Pairwise (fun a b => b.Name.length ≤ a.Name.length) :=
  pairwise_foldl_insertDesc l [] (List.Pairwise.nil)

/-- C3: when at least one zone matches, `getRoute53HostedZoneId` returns
the id-extract (text after the first `"e/"`) of a matching zone whose raw
name length is maximal; on the spec's example store the result is
`ABC123`, and `/hostedzone/ABC123` extracts to `ABC123`. -/
theorem c3_theorem (zones : List HostedZone) (domain : DomainConfig)
    (h0 : domain.hostedZoneId = none) (h : matchedZones zones domain ≠ []) :
    (∃ z ∈ matchedZones zones domain,
        (∀ z' ∈ matchedZones zones domain, z'.Name.length ≤ z.Name.length)
        ∧ (getRoute53HostedZoneId zones domain).1 = Except.ok (extractZoneId z.Id))
    ∧ (getRoute53HostedZoneId c3Zones c3Cfg).1 = Except.ok "ABC123"
    ∧ extractZoneId "/hostedzone/ABC123" = "ABC123" := by
  refine ⟨?_, rfl, rfl⟩
  rcases hsort : sortDesc (matchedZones zones domain) with _ | ⟨z, t⟩
  · obtain ⟨a, ha⟩ := List.exists_mem_of_ne_nil _ h
    have : a ∈ sortDesc (matchedZones zones domain) := (sortDesc_mem a _).mpr ha
    rw [hsort] at this
    simp at this
  · refine ⟨z, ?_, ?_, ?_⟩
    · exact (sortDesc_mem z _).mp (hsort ▸ List.mem_cons_self z t)
    · intro z' hz'
      have hmem : z' ∈ sortDesc (matchedZones zones domain) := (sortDesc_mem z' _).mpr hz'
      rw [hsort] at hmem
      rcases List.mem_cons.mp hmem with rfl | hmem'
      · exact le_refl _
      · have hp := sortDesc_pairwise (matchedZones zones domain)
        rw [hsort, List.pairwise_cons] at hp
        exact hp.1 z' hmem'
    · unfold getRoute53HostedZoneId
      rw [h0]
      dsimp only
      have hmz : zones.filter (hostedZoneFilter domain (givenRevOf domain))
          = matchedZones zones domain := rfl
      rw [hmz, hsort]
      rfl

/-- Witness for C3 at the spec's example: zones `example.com.` and
`bar.example.com.` against requested domain `foo.bar.example.com`. -/
theorem c3_witness :
    (∃ z ∈ matchedZones c3Zones c3Cfg,
        (∀ z' ∈ matchedZones c3Zones c3Cfg, z'.Name.length ≤ z.Name.length)
        ∧ (getRoute53HostedZoneId c3Zones c3Cfg).1 = Except.ok (extractZoneId z.Id))
    ∧ (getRoute53HostedZoneId c3Zones c3Cfg).1 = Except.ok "ABC123"
    ∧ extractZoneId "/hostedzone/ABC123" = "ABC123" :=
  c3_theorem c3Zones c3Cfg rfl (by decide)

/-- The label comparison loop computes exactly the list-prefix test of the
reversed zone labels against the reversed requested labels. -/
theorem zoneLabelsMatch_eq_isPrefixOf :
    ∀ (zr gr : List (List Char)), zoneLabelsMatch gr zr = zr.isPrefixOf gr := by
  intro zr
  induction zr with
  | nil => intro gr; cases gr <;> rfl
  | cons z zs ih =>
    intro gr
    cases gr with
    | nil => rfl
    | cons g gs =>
      show (decide (g = z) && zoneLabelsMatch gs zs) = (z == g && zs.isPrefixOf gs)
      rw [ih gs]
      by_cases h : g = z
      · subst h
        simp
      · simp [h, Ne.symm h]

/-- A true list-prefix test bounds the prefix length. -/
theorem length_le_of_isPrefixOf {zr gr : List (List Char)}
    (h : zr.isPrefixOf gr = true) : zr.length ≤ gr.length :=
  (List.isPrefixOf_iff_prefix.mp h).length_le

/-- C2 amended: a hosted zone is kept as a candidate exactly when its
privacy flag satisfies the `hostedZonePrivate` filter (when set) and the
zone's normalized reversed labels are a componentwise prefix of the
requested domain's reversed labels; the single-label clause of the guard
is vacuous — a single-label domain matches only the equal single-label
zone, not any zone. -/
theorem c2_theorem (domain : DomainConfig) (hostedZone : HostedZone) :
    hostedZoneFilter domain (givenRevOf domain) hostedZone
      = c2AmendedKeep domain hostedZone := by
  unfold hostedZoneFilter c2AmendedKeep privacyOk
  by_cases hp : (!domain.hostedZonePrivate.isSome
      || domain.hostedZonePrivate == some hostedZone.Config.PrivateZone) = true
  · rw [if_pos hp, hp, Bool.true_and]
    by_cases hg : (givenRevOf domain).length = 1
        ∨ ((splitDot (normalizeZoneLabels hostedZone.Name)).reverse).length
            ≤ (givenRevOf domain).length
    · rw [if_pos hg]
      exact zoneLabelsMatch_eq_isPrefixOf _ _
    · rw [if_neg hg]
      push_neg at hg
      rcases hg with ⟨_, hlen⟩
      rcases hb : ((splitDot (normalizeZoneLabels hostedZone.Name)).reverse).isPrefixOf
          (givenRevOf domain) with _ | _
      · rfl
      · have := length_le_of_isPrefixOf hb
        omega
  · rw [if_neg hp]
    have hp' : (!domain.hostedZonePrivate.isSome
        || domain.hostedZonePrivate == some hostedZone.Config.PrivateZone) = false :=
      eq_false_of_ne_true hp
    rw [hp']
    rfl

/-- One matcher iteration, phrased through `certOk`/`certLen`. -/
theorem certStep_eq (g : List Char) (acc : Nat × Option String) (c : CertificateSummary) :
    certStep g acc c =
      if certOk g c = true ∧ acc.1 < certLen c then (certLen c, some c.CertificateArn)
      else acc := rfl

/-- `certMatches` over a cons. -/
theorem certMatches_cons (g : List Char) (c : CertificateSummary)
    (cs : List CertificateSummary) :
    certMatches g (c :: cs)
      = if certOk g c = true then c :: certMatches g cs else certMatches g cs := by
  simp [certMatches, List.filter_cons]

/-- `maxStrippedLen` over the empty list. -/
theorem maxStrippedLen_nil (g : List Char) : maxStrippedLen g [] = 0 := rfl

/-- `maxStrippedLen` over a cons. -/
theorem maxStrippedLen_cons (g : List Char) (c : CertificateSummary)
    (cs : List CertificateSummary) :
    maxStrippedLen g (c :: cs)
      = if certOk g c = true then max (certLen c) (maxStrippedLen g cs)
        else maxStrippedLen g cs := by
  by_cases h : certOk g c = true <;>
    simp [maxStrippedLen, certMatches_cons, h]

/-- `find?` over a `filter` fuses into a conjunction of the predicates. -/
theorem find?_filter_and (p q : CertificateSummary → Bool) :
    ∀ (cs : List CertificateSummary),
      (cs.filter p).find? q = cs.find? (fun c => p c && q c) := by
  intro cs
  induction cs with
  | nil => rfl
  | cons c cs ih =>
    cases hp : p c
    · rw [List.filter_cons, hp]
      rw [if_neg (by simp)]
      rw [ih, List.find?_cons_of_neg _ (by simp [hp])]
    · cases hq : q c
      · rw [List.filter_cons, hp, if_pos rfl]
        rw [List.find?_cons_of_neg _ (by simp [hq]), ih,
          List.find?_cons_of_neg _ (by simp [hp, hq])]
      · rw [List.filter_cons, hp, if_pos rfl]
        rw [List.find?_cons_of_pos _ hq, List.find?_cons_of_pos _ (by simp [hp, hq])]

/-- The matcher fold, characterized: starting from threshold `b` and
fallback `r`, it returns the ARN of the first candidate matching at the
maximal stripped length when that maximum exceeds `b`, else `r`. -/
theorem foldl_certStep (g : List Char) :
    ∀ (cs : List CertificateSummary) (b : Nat) (r : Option String),
      (cs.foldl (certStep g) (b, r)).2 =
        if b < maxStrippedLen g cs then
          (cs.find? (fun c => certOk g c && (certLen c == maxStrippedLen g cs))).map
            (·.CertificateArn)
        else r := by
  intro cs
  induction cs with
  | nil =>
    intro b r
    simp [maxStrippedLen_nil]
  | cons c cs ih =>
    intro b r
    rw [List.foldl_cons, certStep_eq]
    dsimp only
    rw [maxStrippedLen_cons]
    by_cases hok : certOk g c = true
    · rw [if_pos hok]
      by_cases hgt : b < certLen c
      · rw [if_pos ⟨hok, hgt⟩, ih]
        by_cases h2 : certLen c < maxStrippedLen g cs
        · have hmax : max (certLen c) (maxStrippedLen g cs) = maxStrippedLen g cs := by
            omega
          rw [hmax, if_pos h2, if_pos (by omega)]
          rw [List.find?_cons_of_neg _ (by simp [hok]; omega)]
        · have hmax : max (certLen c) (maxStrippedLen g cs) = certLen c := by omega
          rw [hmax, if_neg h2, if_pos hgt]
          rw [List.find?_cons_of_pos _ (by simp [hok])]
          rfl
      · rw [if_neg (by tauto), ih]
        by_cases h3 : b < maxStrippedLen g cs
        · have hmax : max (certLen c) (maxStrippedLen g cs) = maxStrippedLen g cs := by
            omega
          rw [hmax, if_pos h3, if_pos h3]
          rw [List.find?_cons_of_neg _ (by simp [hok]; omega)]
        · rw [if_neg h3, if_neg (by omega)]
    · rw [if_neg hok, if_neg (by tauto), ih]
      by_cases h3 : b < maxStrippedLen g cs
      · rw [if_pos h3, if_pos h3]
        rw [List.find?_cons_of_neg _ (by simp [hok])]
      · rw [if_neg h3, if_neg h3]

/-- When some match has a positive stripped-name length, the source
matcher returns exactly the first candidate at the maximum length. -/
theorem resolveCert_eq_firstAtMaxArn (g : List Char) (certs : List CertificateSummary)
    (h : 0 < maxStrippedLen g certs) :
    resolveCert g certs = firstAtMaxArn g certs := by
  unfold resolveCert firstAtMaxArn certMatches
  rw [foldl_certStep, if_pos h, find?_filter_and]

/-- C1 amended: for a config with no `certificateArn` and no
`certificateName`, certificate resolution strips a leading `*`, keeps a
candidate exactly when the requested domain name contains the stripped
name as a substring, and — provided the maximal stripped length among the
matches is positive — returns the ARN of the first candidate encountered
at that maximal length; a candidate whose stripped name is empty is
never selected. -/
theorem c1_theorem (st : AWSState) (domain : DomainConfig) (arn : String)
    (h1 : domain.certificateArn = none) (h2 : domain.certificateName = none)
    (h3 : 0 < maxStrippedLen domain.givenDomainName.toList (fetchCerts st.certPages).1)
    (h4 : firstAtMaxArn domain.givenDomainName.toList (fetchCerts st.certPages).1
        = some arn) :
    (getCertArn st domain).1 = Except.ok arn := by
  have hres : resolveCert domain.givenDomainName.toList (fetchCerts st.certPages).1
      = some arn := by
    rw [resolveCert_eq_firstAtMaxArn _ _ h3, h4]
  unfold getCertArn
  rw [h1]
  dsimp only
  rw [h2]
  dsimp only
  rw [hres]

/-- Witness for C1 at requested domain `foo.api.example.com` with
candidates `*.example.com` and `*.api.example.com`: the stripped
`.api.example.com` is the longer match and its ARN is returned. -/
theorem c1_witness :
    (getCertArn (AWSState.mk [] [[c1CertA, c1CertB]] [] defaultDistribution) c1CfgFoo).1
      = Except.ok "arnB" :=
  c1_theorem (AWSState.mk [] [[c1CertA, c1CertB]] [] defaultDistribution) c1CfgFoo "arnB"
    rfl rfl (by decide) (by decide)
